import Mathlib

/-!
Verification of the log-to-event extraction state machine and deterministic
replay engine of `atomic/parsing/parser.py` (class `ProcessCSV`), through a
shallow embedding.  Room names, action identifiers, colors and ids are
strings; timestamps, durations and mission timers are integers (the source
computes integral durations with `np.ceil` of a time delta in seconds and
zeroes the final row).  External collaborators (the psychsim world, the map
adjacency oracle `world_map`, the victim action factory `victims`) enter as
function parameters, exactly at the call shapes the source uses.
-/

namespace Atomic

/-! ## Data model: normalized log rows -/

/-- One victim-observation slot of a normalized log row: the columns
`victim_i_id`, `victim_i_color`, `victim_i_in_FOV`. -/
structure Slot where
  id : String
  color : String
  inFOV : Bool
  deriving Repr, DecidableEq

/-- One normalized log row for the subject, after the `LogTable` pipeline:
`Room_in` already canonicalized, `duration` computed as the ceiling of the
forward time delta (0 on the last row).  `vicInCH` is the
`victim_in_crosshair_id` column, `tip` is `triage_in_progress`, `tresult` is
`triage_result`, `timer` is `mission_timer`, `stamp` is the sort key
`dtime`. -/
structure Row where
  room : String
  vics : List Slot
  vicInCH : String
  tip : Bool
  tresult : String
  timer : Int
  stamp : Int
  duration : Int
  deriving Repr, DecidableEq

/-- Derived column `isAVicInFOV`: the OR of all victim-slot FOV flags. -/
def anyInFOV (r : Row) : Bool :=
  r.vics.any (fun s => s.inFOV)

/-! ## Room-name canonicalization (`__init__`, lines 70-80)

The source runs two dataframe passes over `Room_in`: prepend the letter
marker to names starting with the digit 2 (`str.startswith` of a one-char
pattern is a first-character test), then replace each distinct name ending
in the variant suffix x or d by the name with its last character removed.
We model names as lists of characters. -/

/-- Pass 1: rooms with numeric names get the letter marker prepended. -/
def prependR (s : List Char) : List Char :=
  if s.head? = some '2' then 'R' :: s else s

/-- Pass 2: a trailing variant suffix x or d is stripped. -/
def stripVariant (s : List Char) : List Char :=
  if s.getLast? = some 'x' ∨ s.getLast? = some 'd' then s.dropLast else s

/-- The full room-name canonicalization applied by `__init__`. -/
def canonRoom (s : List Char) : List Char :=
  stripVariant (prependR s)

/-! ## FOV color and triage-duration quantization -/

/-- Embeds `getFOVColor` (lines 151-154): the color of the first victim slot
currently in FOV; the Python loop falls off the end and returns None when no
slot is in FOV. -/
def getFOVColor (r : Row) : Option String :=
  (r.vics.find? (fun s => s.inFOV)).map (fun s => s.color)

/-- Embeds `getDurationIfTriaging` (lines 156-174).  The three branches of
the source are exhaustive over the integers (the source relies on this:
`duration` would be unbound on fall-through), so the final branch is the
`originalDuration >= 15` case. -/
def getDurationIfTriaging (r : Row) (originalDuration : Int) : Int :=
  if r.tip = false then originalDuration
  else
    let fovColor := getFOVColor r
    if originalDuration ≤ 7 then 5
    else if originalDuration < 15 then
      if fovColor = some "Green" then 8 else 5
    else
      if fovColor = some "Green" then 8 else 15

/-! ## FOV consistency check (`chkCHAndFOV`, lines 97-121)

Per row with more than one slot in FOV, the source walks the slots in
order; it stops at the first slot whose id is the placeholder string None,
and otherwise overwrites the slot FOV flag with the comparison against the
crosshair victim id. -/

/-- Number of victim slots currently flagged in FOV (the row's `numInFov`). -/
def numInFOV (vics : List Slot) : Nat :=
  (vics.filter (fun s => s.inFOV)).length

/-- The inner repair loop of `chkCHAndFOV` on one row's slots: walk slots in
order, break on an id equal to the placeholder None, else force the FOV flag
to the crosshair comparison. -/
def fixSlots (vicInCH : String) : List Slot → List Slot
  | [] => []
  | s :: rest =>
    if s.id = "None" then s :: rest
    else { s with inFOV := vicInCH == s.id } :: fixSlots vicInCH rest

/-- The per-row effect of `chkCHAndFOV`: rows with more than one slot in FOV
get their slots repaired; all other rows are untouched (the function also
logs two warnings, which carry no state). -/
def chkRowFOV (r : Row) : Row :=
  if 1 < numInFOV r.vics then { r with vics := fixSlots r.vicInCH r.vics } else r

/-- The whole-table effect of `chkCHAndFOV`. -/
def chkCHAndFOV (rows : List Row) : List Row :=
  rows.map chkRowFOV

/-! ## ActionRecords and external collaborators -/

/-- Tag of a record in `self.actions`: the source integers ACTION = 0,
SET_FLG = 1, SEARCH = 3. -/
inductive RecKind
  | action
  | setFlg
  | search
  deriving Repr, DecidableEq

/-- The `actEv` payload of a record, i.e. the Python list `self.actions[t][1]`:
`initLoc` is the one-element list holding the initial room of the first row;
`actOnly` is a one-element list holding a move action from the adjacency
oracle; `actDur` is a triage action paired with its captured quantized
duration; `searchEv` is a search action paired with the observed color;
`flagEv` is a variable-value pair (the source's `events` list is never
appended to, so extraction never emits one, but replay handles the shape). -/
inductive ActEv
  | initLoc (room : String)
  | actOnly (a : String)
  | actDur (a : String) (d : Int)
  | searchEv (a : String) (color : String)
  | flagEv (var : String) (val : String)
  deriving Repr, DecidableEq

/-- One entry of `self.actions`:
`[actOrEvFlag, actEv, stamp, duration, attemptID, mission_timer]`. -/
structure ActionRecord where
  kind : RecKind
  actEv : ActEv
  stamp : Int
  dur : Int
  attempt : Nat
  timer : Int
  deriving Repr, DecidableEq

/-- External collaborators of the extractor: `world_map.getMoveAction`
(with the subject fixed) and the victim action factory.  Action objects are
opaque identifiers. -/
structure Collab where
  movePath : String → String → List String
  triageAct : Option String → String
  searchAct : String

/-! ## FOV-transition detection (`parseFOV`, lines 123-149) -/

/-- Embeds `parseFOV` restricted to its output: the ordered list of colors
appended to `searchActs` (each entry becomes one Search record tagged with
that color; the literal "none" is the explicit negative search result).
`prevRow` is `none` only on the very first processed row, where `newRoom`
is true: there the source never evaluates `prevFOV`, relying on the
short-circuit in `newRoom or (not prevFOV)`. -/
def parseFOVColors (row : Row) (newRoom : Bool) (prevRow : Option Row) : List String :=
  let perSlot : List String :=
    match prevRow with
    | none => row.vics.filterMap (fun s => if newRoom ∧ s.inFOV then some s.color else none)
    | some p =>
        (row.vics.zip p.vics).filterMap
          (fun sp => if (newRoom ∨ sp.2.inFOV = false) ∧ sp.1.inFOV then some sp.1.color else none)
  let prevSomeone : Bool :=
    match prevRow with
    | none => false
    | some p => anyInFOV p
  if prevSomeone = true ∧ anyInFOV row = false ∧ newRoom = false then perSlot ++ ["none"]
  else perSlot

/-! ## The row loop of `getActionsAndEvents` (lines 176-296) -/

/-- Warnings logged by the extractor and the replay engine. -/
inductive Warn
  | unreachable (fromLoc toLoc : String) (stamp : Int)
  | nonexistentVictim (loc color : String)
  deriving Repr, DecidableEq

/-- Loop state carried across rows: the previous non-skipped row (the Python
`prev`, initially an empty Series), the last recorded room (`lastLoc`,
initially None) and the triage attempt counter (`attemptID`). -/
structure ExtState where
  prev : Option Row
  lastLoc : Option String
  attemptID : Nat
  deriving Repr, DecidableEq

/-- The duration-attribution rule of the emission epilogue: in each
`enumerate` loop the first element absorbs the pending duration and zeroes
it, so later elements (and later loops) get 0.  Returns each element paired
with its record-level duration, plus the leftover duration. -/
def spendDuration (d : Int) : List α → List (α × Int) × Int
  | [] => ([], d)
  | x :: rest => ((x, d) :: rest.map (fun y => (y, 0)), 0)

/-- The emission epilogue of one row iteration (lines 268-294): moves, then
searches, then triages, each list consuming the pending duration via
`spendDuration`.  The source's trailing `events` loop is dead code — nothing
is ever appended to `events` — so no flag-set records arise here.  Search
records attach the factory's search action to each color collected by
`parseFOVColors`; triage entries already carry their captured quantized
duration in the payload. -/
def emitRow (moveActs : List ActEv) (searchColors : List String)
    (triageActs : List (String × Int)) (c : Collab) (row : Row)
    (duration : Int) (attempt : Nat) : List ActionRecord :=
  let m := spendDuration duration moveActs
  let s := spendDuration m.2 searchColors
  let t := spendDuration s.2 triageActs
  (m.1.map fun md =>
    { kind := RecKind.action, actEv := md.1, stamp := row.stamp,
      dur := md.2, attempt := attempt, timer := row.timer }) ++
  (s.1.map fun sd =>
    { kind := RecKind.search, actEv := ActEv.searchEv c.searchAct sd.1, stamp := row.stamp,
      dur := sd.2, attempt := attempt, timer := row.timer }) ++
  (t.1.map fun td =>
    { kind := RecKind.action, actEv := ActEv.actDur td.1.1 td.1.2, stamp := row.stamp,
      dur := td.2, attempt := attempt, timer := row.timer })

/-- One iteration of the row loop of `getActionsAndEvents`, returning the
next loop state, the records appended for this row, and the warnings logged.
The branches mirror the source: room change with no previous room (initial
location), room change with an empty move path (log and skip the whole row:
`continue` fires before `lastLoc` and `prev` are updated, so the state is
returned unchanged), room change with a path, and the same-room branch
comparing the triage flags against the previous row.  In the same-room
branch `prev` is necessarily a real row (`lastLoc` is only ever set together
with `prev`); the `none` case is supplied for totality and behaves as if
the flags were unchanged. -/
def stepRow (c : Collab) (st : ExtState) (row : Row) :
    ExtState × List ActionRecord × List Warn :=
  let duration := getDurationIfTriaging row row.duration
  if st.lastLoc = some row.room then
    let searchColors := parseFOVColors row false st.prev
    match st.prev with
    | none =>
        ({ prev := some row, lastLoc := st.lastLoc, attemptID := st.attemptID },
         emitRow [] searchColors [] c row duration st.attemptID, [])
    | some p =>
        let flagsChanged : Prop := row.tip ≠ p.tip ∨ row.tresult ≠ p.tresult
        let triageActs : List (String × Int) :=
          if row.tip = true ∧ flagsChanged then [(c.triageAct (getFOVColor row), duration)] else []
        let attemptID := if p.tip = true ∧ flagsChanged then st.attemptID + 1 else st.attemptID
        ({ prev := some row, lastLoc := st.lastLoc, attemptID := attemptID },
         emitRow [] searchColors triageActs c row duration attemptID, [])
  else
    match st.lastLoc with
    | none =>
        let moveActs := [ActEv.initLoc row.room]
        let searchColors := parseFOVColors row true st.prev
        let triageActs : List (String × Int) :=
          if row.tip then [(c.triageAct (getFOVColor row), duration)] else []
        ({ prev := some row, lastLoc := some row.room, attemptID := st.attemptID },
         emitRow moveActs searchColors triageActs c row duration st.attemptID, [])
    | some l =>
        let mv := c.movePath l row.room
        if mv = [] then (st, [], [Warn.unreachable l row.room row.stamp])
        else
          let moveActs := mv.map ActEv.actOnly
          let searchColors := parseFOVColors row true st.prev
          let triageActs : List (String × Int) :=
            if row.tip then [(c.triageAct (getFOVColor row), duration)] else []
          ({ prev := some row, lastLoc := some row.room, attemptID := st.attemptID },
           emitRow moveActs searchColors triageActs c row duration st.attemptID, [])

/-- The row loop folded over the whole row sequence, concatenating emitted
records and warnings in order. -/
def extractFrom (c : Collab) : ExtState → List Row → List ActionRecord × List Warn
  | _, [] => ([], [])
  | st, row :: rest =>
      let step := stepRow c st row
      let next := extractFrom c step.1 rest
      (step.2.1 ++ next.1, step.2.2 ++ next.2)

/-- Loop state at entry: empty previous row, no last location, attempt 0. -/
def initialExtState : ExtState :=
  { prev := none, lastLoc := none, attemptID := 0 }

/-- Embeds `getActionsAndEvents` with the default `maxEvents = -1` (no event
cap): the records appended to `self.actions` for the time-sorted,
de-duplicated row sequence of the subject. -/
def getActionsAndEvents (c : Collab) (rows : List Row) : List ActionRecord :=
  (extractFrom c initialExtState rows).1

/-! ## Replay engine (`runTimeless`, lines 304-384)

The psychsim world is external.  We carry concretely the pieces the engine
itself reads or writes — the virtual clock `seconds`, the subject location
`loc` and the ground-truth victim counters `ctr` (the features
`ctr_loc_color`) — and an abstract remainder `rest`.  `world.step`,
`world.modelGC`, `getLegalActions` and the belief-update machinery of the
SET_FLG branch are collaborator functions. -/

/-- Max number of seconds on the game timer (`MAX_MISSION_TIMER`). -/
def MAX_MISSION_TIMER : Int := 10 * 60

/-- The replay-visible world state. -/
structure World (σ : Type) where
  seconds : Int
  loc : String
  ctr : String → String → Int
  rest : σ

/-- The selection override dictionary passed to `world.step`: the fixed
comprehension forcing every sensor state variable to none, optionally
extended with a forced clock value (triage durations) or a forced FOV color
(searches). -/
structure SelOverride where
  clock : Option Int
  fov : Option String
  deriving Repr, DecidableEq

/-- Fatal replay errors. `illegalAction` carries exactly what the source
interpolates into the ValueError message: the offending action, the time
index and the legal choice set.  `unbelievable` models the SET_FLG
domain-membership failure. -/
inductive ReplayError
  | illegalAction (act : String) (t : Nat) (legal : List String)
  | unbelievable (stamp : Int) (var : String) (val : String)
  deriving Repr, DecidableEq

/-- External capabilities of the replay run: `stepW` is `world.step` with
the run's fixed `prune_threshold` and the subsequent `world.modelGC` folded
behind it is `gc`; `legalActions` is `world.agents[human].getLegalActions`;
`setFlag` is the SET_FLG ground-truth-and-belief update, which may fail with
an unbelievable-observation error; `permissive` is the run flag. -/
structure ReplayCtx (σ : Type) where
  stepW : World σ → String → SelOverride → World σ
  gc : World σ → World σ
  legalActions : World σ → List String
  setFlag : World σ → Int → String → String → Except ReplayError (World σ)
  permissive : Bool

/-- Manual clock sync executed before every non-bootstrap record (line 330):
the game timer counts down, the world clock counts up. -/
def syncClock (w : World σ) (timer : Int) : World σ :=
  { w with seconds := MAX_MISSION_TIMER - timer }

/-- The element `actEv[0]` as the ACTION branch reads it. -/
def actionActOf : ActEv → String
  | ActEv.initLoc room => room
  | ActEv.actOnly a => a
  | ActEv.actDur a _ => a
  | ActEv.searchEv a _ => a
  | ActEv.flagEv var _ => var

/-- The optional duration the ACTION branch reads when `len(actEv) > 1`.
Only triage payloads carry one; search and flag payloads never reach the
ACTION branch (their kinds dispatch elsewhere). -/
def durOf : ActEv → Option Int
  | ActEv.actDur _ d => some d
  | _ => none

/-- The search act and color `actEv[0], actEv[1]` as the SEARCH branch reads
them; records of search kind always carry `searchEv` payloads. -/
def searchPartsOf : ActEv → String × String
  | ActEv.searchEv a color => (a, color)
  | ActEv.initLoc room => (room, "")
  | ActEv.actOnly a => (a, "")
  | ActEv.actDur a _ => (a, "")
  | ActEv.flagEv var val => (var, val)

/-- One iteration of the `runTimeless` loop for a record index `t ≥ 1`
(index 0 is the bootstrap, which sets the initial location or flag without
a step).  Mirrors the source order: clock sync, then dispatch on the record
kind.  ACTION: legality check against the world's current legal choices,
then a single step under the sensor override (plus the forced clock when a
duration is attached) followed by model garbage collection.  SET_FLG: the
external belief update.  SEARCH: sensor override plus the forced FOV color;
in permissive mode a non-none color whose ground-truth counter at the
current location is zero logs a warning and skips the step entirely. -/
def processRecord (ctx : ReplayCtx σ) (t : Nat) (w : World σ) (rec : ActionRecord) :
    Except ReplayError (World σ × List Warn) :=
  let w1 := syncClock w rec.timer
  match rec.kind with
  | RecKind.action =>
      let act := actionActOf rec.actEv
      let legal := ctx.legalActions w1
      if act ∈ legal then
        let sel : SelOverride :=
          { clock := (durOf rec.actEv).map (fun d => w1.seconds + d), fov := none }
        Except.ok (ctx.gc (ctx.stepW w1 act sel), [])
      else
        Except.error (ReplayError.illegalAction act t legal)
  | RecKind.setFlg =>
      let parts := searchPartsOf rec.actEv
      (ctx.setFlag w1 rec.stamp parts.1 parts.2).map (fun w2 => (w2, []))
  | RecKind.search =>
      let parts := searchPartsOf rec.actEv
      let sel : SelOverride := { clock := none, fov := some parts.2 }
      if ctx.permissive = true ∧ parts.2 ≠ "none" ∧ w1.ctr w1.loc parts.2 = 0 then
        Except.ok (w1, [Warn.nonexistentVictim w1.loc parts.2])
      else
        Except.ok (ctx.gc (ctx.stepW w1 parts.1 sel), [])

/-! ## Theorems -/

/-! ### Branch lemmas for the row loop -/

/-- Unfolding of the same-room branch of `stepRow`. -/
lemma stepRow_same_room (c : Collab) (st : ExtState) (row p : Row)
    (hl : st.lastLoc = some row.room) (hprev : st.prev = some p) :
    stepRow c st row =
      ({ prev := some row, lastLoc := st.lastLoc,
         attemptID :=
           if p.tip = true ∧ (row.tip ≠ p.tip ∨ row.tresult ≠ p.tresult)
           then st.attemptID + 1 else st.attemptID },
       emitRow [] (parseFOVColors row false (some p))
         (if row.tip = true ∧ (row.tip ≠ p.tip ∨ row.tresult ≠ p.tresult)
          then [(c.triageAct (getFOVColor row), getDurationIfTriaging row row.duration)]
          else [])
         c row (getDurationIfTriaging row row.duration)
         (if p.tip = true ∧ (row.tip ≠ p.tip ∨ row.tresult ≠ p.tresult)
          then st.attemptID + 1 else st.attemptID),
       []) := by
  unfold stepRow
  rw [if_pos hl, hprev]

/-- Unfolding of the first-row branch of `stepRow` (no previous room). -/
lemma stepRow_first_row (c : Collab) (st : ExtState) (row : Row)
    (hl : st.lastLoc = none) :
    stepRow c st row =
      ({ prev := some row, lastLoc := some row.room, attemptID := st.attemptID },
       emitRow [ActEv.initLoc row.room] (parseFOVColors row true st.prev)
         (if row.tip
          then [(c.triageAct (getFOVColor row), getDurationIfTriaging row row.duration)]
          else [])
         c row (getDurationIfTriaging row row.duration) st.attemptID,
       []) := by
  unfold stepRow
  rw [hl, if_neg (by simp)]

/-- Unfolding of the unreachable-move branch of `stepRow`: the row is
skipped whole and the loop state is unchanged. -/
lemma stepRow_unreachable (c : Collab) (st : ExtState) (row : Row) (l : String)
    (hl : st.lastLoc = some l) (hne : row.room ≠ l) (hmv : c.movePath l row.room = []) :
    stepRow c st row = (st, [], [Warn.unreachable l row.room row.stamp]) := by
  simp [stepRow, hl, Ne.symm hne, hmv]

/-- Unfolding of the reachable room-change branch of `stepRow`. -/
lemma stepRow_move (c : Collab) (st : ExtState) (row : Row) (l : String)
    (hl : st.lastLoc = some l) (hne : row.room ≠ l) (hmv : c.movePath l row.room ≠ []) :
    stepRow c st row =
      ({ prev := some row, lastLoc := some row.room, attemptID := st.attemptID },
       emitRow ((c.movePath l row.room).map ActEv.actOnly) (parseFOVColors row true st.prev)
         (if row.tip
          then [(c.triageAct (getFOVColor row), getDurationIfTriaging row row.duration)]
          else [])
         c row (getDurationIfTriaging row row.duration) st.attemptID,
       []) := by
  simp [stepRow, hl, Ne.symm hne, hmv]

/-! ### Membership in the emitted records of a row -/

/-- Every element of the input list appears, with some attributed duration,
in the output of `spendDuration`. -/
lemma spendDuration_mem (d : Int) (xs : List α) (x : α) (hx : x ∈ xs) :
    ∃ q ∈ (spendDuration d xs).1, q.1 = x := by
  cases xs with
  | nil => cases hx
  | cons y ys =>
    rcases List.mem_cons.mp hx with h | h
    · exact ⟨(y, d), by simp [spendDuration], by simp [h]⟩
    · refine ⟨(x, 0), ?_, rfl⟩
      simp only [spendDuration, List.mem_cons]
      exact Or.inr (List.mem_map_of_mem (fun y => (y, 0)) h)

/-- Each collected search color yields a Search record tagged with it among
the row's emitted records. -/
lemma emitRow_mem_search (mv : List ActEv) (sc : List String) (tr : List (String × Int))
    (c : Collab) (row : Row) (d : Int) (att : Nat) (color : String) (hc : color ∈ sc) :
    ∃ r ∈ emitRow mv sc tr c row d att,
      r.kind = RecKind.search ∧ r.actEv = ActEv.searchEv c.searchAct color := by
  obtain ⟨q, hq, hq1⟩ := spendDuration_mem (spendDuration d mv).2 sc color hc
  refine ⟨{ kind := RecKind.search, actEv := ActEv.searchEv c.searchAct q.1,
            stamp := row.stamp, dur := q.2, attempt := att, timer := row.timer },
          ?_, rfl, by rw [hq1]⟩
  unfold emitRow
  simp only [List.mem_append, List.mem_map]
  exact Or.inl (Or.inr ⟨q, hq, rfl⟩)

/-- Each collected triage entry yields an ACTION record whose payload is the
triage act paired with its captured duration. -/
lemma emitRow_mem_triage (mv : List ActEv) (sc : List String) (tr : List (String × Int))
    (c : Collab) (row : Row) (d : Int) (att : Nat) (a : String) (d0 : Int)
    (h : (a, d0) ∈ tr) :
    ∃ r ∈ emitRow mv sc tr c row d att,
      r.kind = RecKind.action ∧ r.actEv = ActEv.actDur a d0 := by
  obtain ⟨q, hq, hq1⟩ :=
    spendDuration_mem (spendDuration (spendDuration d mv).2 sc).2 tr (a, d0) h
  refine ⟨{ kind := RecKind.action, actEv := ActEv.actDur q.1.1 q.1.2,
            stamp := row.stamp, dur := q.2, attempt := att, timer := row.timer },
          ?_, rfl, by rw [hq1]⟩
  unfold emitRow
  simp only [List.mem_append, List.mem_map]
  exact Or.inr ⟨q, hq, rfl⟩

/-- The marker-prepending pass never yields a name whose first character is
the numeric marker trigger, so the second application of the
canonicalization never prepends again. -/
lemma canonRoom_head_ne_marker (s : List Char) : (canonRoom s).head? ≠ some '2' := by
  match s with
  | [] => simp [canonRoom, prependR, stripVariant]
  | a :: t =>
    by_cases h2 : a = '2'
    · subst h2
      have hpre : prependR ('2' :: t) = 'R' :: '2' :: t := by
        simp [prependR]
      rw [canonRoom, hpre, stripVariant]
      split
      · show (('R' :: '2' :: t).dropLast).head? ≠ some '2'
        cases t <;> simp [List.dropLast]
      · simp
    · have hpre : prependR (a :: t) = a :: t := by
        simp [prependR, h2]
      rw [canonRoom, hpre, stripVariant]
      split
      · show ((a :: t).dropLast).head? ≠ some '2'
        cases t with
        | nil => simp [List.dropLast]
        | cons b t2 => simpa [List.dropLast] using h2
      · simpa using h2

/-- C8 (amended): room-name canonicalization applied twice equals applying
it once for every name whose canonical form does not itself end in a
variant-suffix character; a doubled suffix (see the counterexample) breaks
the fixed point, because only one trailing character is stripped per
application. -/
theorem canonRoom_twice_of_no_variant_suffix (s : List Char)
    (hx : (canonRoom s).getLast? ≠ some 'x') (hd : (canonRoom s).getLast? ≠ some 'd') :
    canonRoom (canonRoom s) = canonRoom s := by
  have h2 := canonRoom_head_ne_marker s
  show stripVariant (prependR (canonRoom s)) = canonRoom s
  rw [prependR, if_neg h2, stripVariant, if_neg]
  intro h
  rcases h with h | h
  · exact hx h
  · exact hd h

/-- Witness for C8 (amended) at the spec's own example name 204x. -/
theorem canonRoom_twice_witness :
    canonRoom (canonRoom ['2', '0', '4', 'x']) = canonRoom ['2', '0', '4', 'x'] :=
  canonRoom_twice_of_no_variant_suffix ['2', '0', '4', 'x'] (by decide) (by decide)

/-- C8 counterexample: on the room name 204xx one application yields R204x
and a second application strips again, so canonicalization is not a fixed
point on all names. -/
theorem canonRoom_not_idempotent :
    canonRoom ['2', '0', '4', 'x', 'x'] = ['R', '2', '0', '4', 'x'] ∧
    canonRoom (canonRoom ['2', '0', '4', 'x', 'x']) = ['R', '2', '0', '4'] ∧
    canonRoom (canonRoom ['2', '0', '4', 'x', 'x']) ≠ canonRoom ['2', '0', '4', 'x', 'x'] := by
  refine ⟨by decide, by decide, by decide⟩

/-- C2 (amended): the triage-duration quantization of
`getDurationIfTriaging`.  Without an active triage the duration is returned
unchanged; with one, durations up to 7 quantize to 5, durations strictly
between 7 and 15 quantize to 8 exactly when the FOV color is the
high-value color and to 5 otherwise, and durations of 15 or more quantize
to 8 exactly when the FOV color is the high-value color — not 15 — and to
15 otherwise. -/
theorem getDurationIfTriaging_cases (r : Row) (d : Int) :
    (r.tip = false → getDurationIfTriaging r d = d) ∧
    (r.tip = true → d ≤ 7 → getDurationIfTriaging r d = 5) ∧
    (r.tip = true → 7 < d → d < 15 →
      getDurationIfTriaging r d = if getFOVColor r = some "Green" then 8 else 5) ∧
    (r.tip = true → 15 ≤ d →
      getDurationIfTriaging r d = if getFOVColor r = some "Green" then 8 else 15) := by
  refine ⟨fun h => ?_, fun h h7 => ?_, fun h h7 h15 => ?_, fun h h15 => ?_⟩
  · simp [getDurationIfTriaging, h]
  · simp [getDurationIfTriaging, h, h7]
  · simp [getDurationIfTriaging, h, show ¬ d ≤ 7 by omega, h15]
  · simp [getDurationIfTriaging, h, show ¬ d ≤ 7 by omega, show ¬ d < 15 by omega]

/-- Witness for C2 (amended), which is also the spec's scenario: a 6-second
triage with no high-value victim in FOV quantizes to 5. -/
theorem getDurationIfTriaging_cases_witness :
    getDurationIfTriaging
      { room := "R210", vics := [], vicInCH := "None", tip := true,
        tresult := "SUCCESSFUL", timer := 300, stamp := 0, duration := 6 } 6 = 5 :=
  (getDurationIfTriaging_cases
    { room := "R210", vics := [], vicInCH := "None", tip := true,
      tresult := "SUCCESSFUL", timer := 300, stamp := 0, duration := 6 } 6).2.1 rfl (by decide)

/-- A concrete triaging row with the high-value color in FOV. -/
def greenTriageRow : Row :=
  { room := "R201", vics := [{ id := "v1", color := "Green", inFOV := true }],
    vicInCH := "v1", tip := true, tresult := "SUCCESSFUL", timer := 300,
    stamp := 0, duration := 20 }

/-- C2 counterexample: with an active triage, duration 20 and the high-value
color in FOV, the code quantizes to 8, not to 15 as the claim states for
every duration of at least 15. -/
theorem quantize_ge_15_high_value_is_8 :
    greenTriageRow.tip = true ∧
    getFOVColor greenTriageRow = some "Green" ∧
    getDurationIfTriaging greenTriageRow 20 = 8 ∧
    getDurationIfTriaging greenTriageRow 20 ≠ 15 := by
  refine ⟨rfl, by decide, by decide, by decide⟩

/-- When no slot of a row is in FOV, the per-slot loop of `parseFOV` emits
nothing for that row. -/
lemma parseFOVColors_perSlot_nil (row p : Row) (newRoom : Bool)
    (hr : anyInFOV row = false) :
    (row.vics.zip p.vics).filterMap
      (fun sp => if (newRoom ∨ sp.2.inFOV = false) ∧ sp.1.inFOV then some sp.1.color else none)
      = [] := by
  have hslots : ∀ s ∈ row.vics, ¬ s.inFOV = true := by
    intro s hs hc
    have : anyInFOV row = true := by
      unfold anyInFOV
      rw [List.any_eq_true]
      exact ⟨s, hs, hc⟩
    rw [this] at hr
    cases hr
  rw [List.filterMap_eq_nil_iff]
  intro sp hsp
  have h1 : sp.1 ∈ row.vics := (List.of_mem_zip hsp).1
  rw [if_neg]
  intro hcond
  exact hslots sp.1 h1 hcond.2

/-- C3 (amended): during FOV-transition detection on a row that is not a
fresh room entry, if somebody was in FOV on the previous row and nobody is
in FOV on the current row, `parseFOV` emits exactly one Search tagged with
the explicit negative result "none" (the source condition is `prevSomeone
and not someoneInFOV and not newRoom`, so somebody — not nobody — must have
been in FOV on the previous row); at the extractor level the corresponding
same-room step emits a Search record tagged "none". -/
theorem parseFOV_none_on_fov_loss (row p : Row)
    (hp : anyInFOV p = true) (hr : anyInFOV row = false) :
    parseFOVColors row false (some p) = ["none"] ∧
    (∀ (c : Collab) (st : ExtState), st.lastLoc = some row.room → st.prev = some p →
      ∃ r ∈ (stepRow c st row).2.1,
        r.kind = RecKind.search ∧ r.actEv = ActEv.searchEv c.searchAct "none") := by
  have hmain : parseFOVColors row false (some p) = ["none"] := by
    unfold parseFOVColors
    simp only [parseFOVColors_perSlot_nil row p false hr]
    simp [hp, hr]
  refine ⟨hmain, fun c st hl hprev => ?_⟩
  rw [stepRow_same_room c st row p hl hprev]
  exact emitRow_mem_search _ _ _ c row _ _ "none" (by rw [hmain]; exact List.mem_singleton_self "none")

/-- Witness for C3 (amended): a concrete FOV-loss row pair. -/
theorem parseFOV_none_on_fov_loss_witness :
    parseFOVColors
      { room := "R201", vics := [{ id := "v1", color := "Gold", inFOV := false }],
        vicInCH := "None", tip := false, tresult := "NONE", timer := 300,
        stamp := 1, duration := 2 }
      false
      (some { room := "R201", vics := [{ id := "v1", color := "Gold", inFOV := true }],
              vicInCH := "v1", tip := false, tresult := "NONE", timer := 301,
              stamp := 0, duration := 1 }) = ["none"] :=
  (parseFOV_none_on_fov_loss _ _ (by decide) (by decide)).1

/-- C3 counterexample: nobody in FOV on the previous row, nobody in FOV now,
same room — the code emits no Search at all, where the claim demands a
Search tagged "none". -/
theorem parseFOV_silent_when_nobody_before :
    anyInFOV { room := "R201", vics := [{ id := "v1", color := "Gold", inFOV := false }],
               vicInCH := "None", tip := false, tresult := "NONE", timer := 301,
               stamp := 0, duration := 1 } = false ∧
    parseFOVColors
      { room := "R201", vics := [{ id := "v1", color := "Gold", inFOV := false }],
        vicInCH := "None", tip := false, tresult := "NONE", timer := 300,
        stamp := 1, duration := 2 }
      false
      (some { room := "R201", vics := [{ id := "v1", color := "Gold", inFOV := false }],
              vicInCH := "None", tip := false, tresult := "NONE", timer := 301,
              stamp := 0, duration := 1 }) = [] := by
  refine ⟨by decide, by decide⟩

/-- Recursion equation for the FOV count. -/
lemma numInFOV_cons (s : Slot) (t : List Slot) :
    numInFOV (s :: t) = (if s.inFOV then 1 else 0) + numInFOV t := by
  by_cases h : s.inFOV = true
  · simp only [numInFOV, List.filter_cons, h, if_pos, List.length_cons]
    omega
  · simp [numInFOV, List.filter_cons, h]

/-- Rows where no slot is flagged count zero. -/
lemma numInFOV_eq_zero (l : List Slot) (h : ∀ s ∈ l, s.inFOV = false) :
    numInFOV l = 0 := by
  induction l with
  | nil => rfl
  | cons s t ih =>
    rw [numInFOV_cons, h s (List.mem_cons_self s t),
      ih (fun s2 hs2 => h s2 (List.mem_cons_of_mem s hs2))]
    simp

/-- When no slot id is the placeholder None, the repair loop never breaks
early: every slot's FOV flag is overwritten with the crosshair
comparison. -/
lemma fixSlots_no_none (ch : String) (l : List Slot) (h : ∀ s ∈ l, s.id ≠ "None") :
    fixSlots ch l = l.map (fun s => { s with inFOV := ch == s.id }) := by
  induction l with
  | nil => rfl
  | cons s t ih =>
    simp only [fixSlots, List.map_cons]
    rw [if_neg (h s (List.mem_cons_self s t)),
      ih (fun s2 hs2 => h s2 (List.mem_cons_of_mem s hs2))]

/-- With pairwise distinct slot ids, forcing every FOV flag to the
crosshair comparison leaves at most one slot flagged. -/
lemma numInFOV_forced_le_one (ch : String) (l : List Slot)
    (hnd : (l.map (fun s => s.id)).Nodup) :
    numInFOV (l.map (fun s => { s with inFOV := ch == s.id })) ≤ 1 := by
  induction l with
  | nil => simp [numInFOV]
  | cons s t ih =>
    have hnotin : s.id ∉ t.map (fun s2 => s2.id) := (List.nodup_cons.mp hnd).1
    have ihle := ih (List.nodup_cons.mp hnd).2
    rw [List.map_cons, numInFOV_cons]
    by_cases hch : (ch == s.id) = true
    · have hid : ch = s.id := by simpa using hch
      have hzero : numInFOV (t.map (fun s2 => { s2 with inFOV := ch == s2.id })) = 0 := by
        apply numInFOV_eq_zero
        intro x hx
        rcases List.mem_map.mp hx with ⟨s2, hs2, rfl⟩
        simp only [Bool.eq_false_iff]
        intro hbad
        have heq : ch = s2.id := by simpa using hbad
        apply hnotin
        have hss : s.id = s2.id := hid ▸ heq
        rw [hss]
        exact List.mem_map_of_mem (fun s2 => s2.id) hs2
      simp [hch, hzero]
    · simp only [hch]
      simpa using ihle

/-- C7 (amended): for rows whose slot ids are pairwise distinct and never
the placeholder None, the consistency check leaves every row with at most
one slot in FOV; rows that had more than one slot in FOV get every slot's
flag forced to the comparison with the crosshair victim id (so all flags
are false when no slot matches it), and rows with at most one slot in FOV
are untouched.  Without those side conditions the repair loop can stop
early at a None slot id (see the counterexample), which the claim does not
allow for. -/
theorem chkRowFOV_resolves (r : Row)
    (hids : ∀ s ∈ r.vics, s.id ≠ "None")
    (hnd : (r.vics.map (fun s => s.id)).Nodup) :
    numInFOV (chkRowFOV r).vics ≤ 1 ∧
    (1 < numInFOV r.vics →
      ∀ s ∈ (chkRowFOV r).vics, s.inFOV = (r.vicInCH == s.id)) ∧
    (numInFOV r.vics ≤ 1 → chkRowFOV r = r) := by
  refine ⟨?_, ?_, ?_⟩
  · unfold chkRowFOV
    split
    · simp only
      rw [fixSlots_no_none r.vicInCH r.vics hids]
      exact numInFOV_forced_le_one r.vicInCH r.vics hnd
    · next h => omega
  · intro hgt s hs
    unfold chkRowFOV at hs
    rw [if_pos hgt] at hs
    simp only at hs
    rw [fixSlots_no_none r.vicInCH r.vics hids] at hs
    rcases List.mem_map.mp hs with ⟨s2, _, rfl⟩
    rfl
  · intro hle
    unfold chkRowFOV
    rw [if_neg (by omega)]

/-- Witness for C7 (amended): a concrete ambiguous row gets resolved to the
crosshair victim only. -/
theorem chkRowFOV_resolves_witness :
    numInFOV (chkRowFOV
      { room := "R201",
        vics := [{ id := "v1", color := "Green", inFOV := true },
                 { id := "v2", color := "Gold", inFOV := true }],
        vicInCH := "v2", tip := false, tresult := "NONE", timer := 300,
        stamp := 0, duration := 1 }).vics ≤ 1 :=
  (chkRowFOV_resolves
    { room := "R201",
      vics := [{ id := "v1", color := "Green", inFOV := true },
               { id := "v2", color := "Gold", inFOV := true }],
      vicInCH := "v2", tip := false, tresult := "NONE", timer := 300,
      stamp := 0, duration := 1 } (by decide) (by decide)).1

/-- A row with two slots in FOV whose first slot id is the placeholder
None. -/
def noneIdRow : Row :=
  { room := "R201",
    vics := [{ id := "None", color := "Green", inFOV := true },
             { id := "v2", color := "Gold", inFOV := true }],
    vicInCH := "v2", tip := false, tresult := "NONE", timer := 300,
    stamp := 0, duration := 1 }

/-- C7 counterexample: the repair loop breaks at the first slot because its
id is None, so this row still has two slots in FOV after the check — not
zero or one as the claim states, and the crosshair slot was not the only
one forced true. -/
theorem chkRowFOV_leaves_two_in_fov :
    1 < numInFOV noneIdRow.vics ∧
    chkRowFOV noneIdRow = noneIdRow ∧
    numInFOV (chkRowFOV noneIdRow).vics = 2 := by
  refine ⟨by decide, by decide, by decide⟩

/-! ### Concrete fixtures shared by witnesses and counterexamples -/

/-- A collaborator whose adjacency oracle always finds a one-hop path. -/
def cPath : Collab :=
  { movePath := fun _ _ => ["move_hop"], triageAct := fun _ => "triage_act",
    searchAct := "search_act" }

/-- A collaborator whose adjacency oracle never finds a path. -/
def cNoPath : Collab :=
  { movePath := fun _ _ => [], triageAct := fun _ => "triage_act",
    searchAct := "search_act" }

/-- A quiet first row in room R201. -/
def prevRowA : Row :=
  { room := "R201", vics := [], vicInCH := "None", tip := false,
    tresult := "NONE", timer := 300, stamp := 0, duration := 1 }

/-- A later row in a different room R208. -/
def moveRowB : Row :=
  { room := "R208", vics := [], vicInCH := "None", tip := false,
    tresult := "NONE", timer := 295, stamp := 1, duration := 4 }

/-- C6: a row whose room differs from the last recorded room and whose move
path is empty is logged as unreachable and skipped whole: the loop state is
returned unchanged (neither `prev` nor `lastLoc` nor the attempt counter
move), no record is emitted for the row, and extraction of the remaining
rows proceeds exactly as if the row were absent.  The embedding is a total
function, so no exception escapes. -/
theorem unreachable_row_is_skipped (c : Collab) (st : ExtState) (row : Row) (l : String)
    (rest : List Row)
    (hl : st.lastLoc = some l) (hne : row.room ≠ l) (hmv : c.movePath l row.room = []) :
    stepRow c st row = (st, [], [Warn.unreachable l row.room row.stamp]) ∧
    extractFrom c st (row :: rest) =
      ((extractFrom c st rest).1,
       Warn.unreachable l row.room row.stamp :: (extractFrom c st rest).2) := by
  have h1 := stepRow_unreachable c st row l hl hne hmv
  refine ⟨h1, ?_⟩
  simp [extractFrom, h1]

/-- Witness for C6 at a concrete unreachable transition. -/
theorem unreachable_row_is_skipped_witness :
    stepRow cNoPath { prev := some prevRowA, lastLoc := some "R201", attemptID := 0 } moveRowB =
      ({ prev := some prevRowA, lastLoc := some "R201", attemptID := 0 }, [],
       [Warn.unreachable "R201" "R208" 1]) :=
  (unreachable_row_is_skipped cNoPath
    { prev := some prevRowA, lastLoc := some "R201", attemptID := 0 }
    moveRowB "R201" [] rfl (by decide) rfl).1

/-- C5 (amended): in permissive mode, a Search record with a non-none color
whose ground-truth counter at the subject's current location is zero is
answered with a logged warning and no world step: the resulting world is
exactly the clock-resynced input world, for every possible step and
garbage-collection function (so the step function is never applied), and
location, counters and the abstract remainder are untouched.  Only the
virtual clock changes, because the engine resyncs it before every record
— the claim's stronger reading that the whole state is identical fails on
the clock (see the counterexample). -/
theorem permissive_search_skips_step {σ : Type} (ctx : ReplayCtx σ) (t : Nat)
    (w : World σ) (rec : ActionRecord) (a color : String)
    (hk : rec.kind = RecKind.search) (hev : rec.actEv = ActEv.searchEv a color)
    (hperm : ctx.permissive = true) (hc : color ≠ "none")
    (hctr : w.ctr w.loc color = 0) :
    processRecord ctx t w rec =
      Except.ok (syncClock w rec.timer, [Warn.nonexistentVictim w.loc color]) ∧
    (syncClock w rec.timer).loc = w.loc ∧
    (syncClock w rec.timer).ctr = w.ctr ∧
    (syncClock w rec.timer).rest = w.rest := by
  refine ⟨?_, rfl, rfl, rfl⟩
  unfold processRecord
  rw [hk, hev]
  simp [searchPartsOf, syncClock, hperm, hc, hctr]

/-- The replay context used in concrete replay runs: an inert world
stepper suffices because the theorems quantify over it. -/
def ctxSkip : ReplayCtx Unit :=
  { stepW := fun w _ _ => w, gc := fun w => w, legalActions := fun _ => ["move_hop"],
    setFlag := fun w _ _ _ => Except.ok w, permissive := true }

/-- A world with no victims anywhere and the clock at zero. -/
def w0 : World Unit :=
  { seconds := 0, loc := "R201", ctr := fun _ _ => 0, rest := () }

/-- A permissive-mode Search record observing a Gold victim. -/
def searchRecGold : ActionRecord :=
  { kind := RecKind.search, actEv := ActEv.searchEv "search_act" "Gold",
    stamp := 5, dur := 0, attempt := 0, timer := 300 }

/-- Witness for C5 (amended) at a concrete skipped search. -/
theorem permissive_search_skips_step_witness :
    processRecord ctxSkip 1 w0 searchRecGold =
      Except.ok (syncClock w0 searchRecGold.timer,
        [Warn.nonexistentVictim w0.loc "Gold"]) :=
  (permissive_search_skips_step ctxSkip 1 w0 searchRecGold "search_act" "Gold"
    rfl rfl rfl (by decide) rfl).1

/-- C5 counterexample: processing the skipped Search record still changes
the world, because the per-record clock resync runs before the permissive
guard: the world afterwards has its clock at 300 where the input world had
0, so the state is not identical before and after. -/
theorem permissive_search_reclocks_world :
    processRecord ctxSkip 1 w0 searchRecGold =
      Except.ok ({ seconds := 300, loc := "R201", ctr := fun _ _ => 0, rest := () },
                 [Warn.nonexistentVictim "R201" "Gold"]) ∧
    ({ seconds := 300, loc := "R201", ctr := fun _ _ => 0, rest := () } : World Unit) ≠ w0 := by
  constructor
  · rfl
  · intro h
    have hs := congrArg World.seconds h
    simp [w0] at hs

/-- C9: for ACTION-kind records (moves and triages) processed after the
bootstrap record, replay fails exactly when the record's action is not
among the world's current legal choices, the failure names the offending
action, the time index and the legal set, and a legal action steps the
world exactly once — the result is the single application of the step
function under the sensors-to-none override, extended with the forced
clock advance when the record carries a triage duration, followed by model
garbage collection. -/
theorem replay_action_record {σ : Type} (ctx : ReplayCtx σ) (t : Nat) (w : World σ)
    (rec : ActionRecord) (hk : rec.kind = RecKind.action) :
    ((∃ e, processRecord ctx t w rec = Except.error e) ↔
      actionActOf rec.actEv ∉ ctx.legalActions (syncClock w rec.timer)) ∧
    (actionActOf rec.actEv ∉ ctx.legalActions (syncClock w rec.timer) →
      processRecord ctx t w rec =
        Except.error (ReplayError.illegalAction (actionActOf rec.actEv) t
          (ctx.legalActions (syncClock w rec.timer)))) ∧
    (actionActOf rec.actEv ∈ ctx.legalActions (syncClock w rec.timer) →
      processRecord ctx t w rec =
        Except.ok (ctx.gc (ctx.stepW (syncClock w rec.timer) (actionActOf rec.actEv)
          { clock := (durOf rec.actEv).map (fun d => (syncClock w rec.timer).seconds + d),
            fov := none }), [])) := by
  by_cases hmem : actionActOf rec.actEv ∈ ctx.legalActions (syncClock w rec.timer)
  · have heval : processRecord ctx t w rec =
        Except.ok (ctx.gc (ctx.stepW (syncClock w rec.timer) (actionActOf rec.actEv)
          { clock := (durOf rec.actEv).map (fun d => (syncClock w rec.timer).seconds + d),
            fov := none }), []) := by
      unfold processRecord
      rw [hk]
      simp [hmem]
    refine ⟨?_, fun hnot => absurd hmem hnot, fun _ => heval⟩
    simp [heval, hmem]
  · have heval : processRecord ctx t w rec =
        Except.error (ReplayError.illegalAction (actionActOf rec.actEv) t
          (ctx.legalActions (syncClock w rec.timer))) := by
      unfold processRecord
      rw [hk]
      simp [hmem]
    refine ⟨?_, fun _ => heval, fun hmem2 => absurd hmem2 hmem⟩
    simp [heval, hmem]

/-- A legal one-hop move record. -/
def moveRecHop : ActionRecord :=
  { kind := RecKind.action, actEv := ActEv.actOnly "move_hop",
    stamp := 1, dur := 4, attempt := 0, timer := 295 }

/-- Witness for C9: the concrete legal move record steps the world once. -/
theorem replay_action_record_witness :
    processRecord ctxSkip 1 w0 moveRecHop =
      Except.ok (ctxSkip.gc (ctxSkip.stepW (syncClock w0 moveRecHop.timer) "move_hop"
        { clock := none, fov := none }), []) :=
  (replay_action_record ctxSkip 1 w0 moveRecHop rfl).2.2 (by decide)

/-- C10: when a triage is in progress on entry to a new room but no victim
slot is in FOV, the FOV-color lookup returns none, the emitted Triage
record carries the factory action applied to none together with the
quantized duration, and quantization takes the non-high-value branches (5
below 15 seconds, 15 at or above). -/
theorem triage_without_fov_carries_none (c : Collab) (st : ExtState) (row : Row)
    (l : String)
    (hl : st.lastLoc = some l) (hne : row.room ≠ l) (hmv : c.movePath l row.room ≠ [])
    (htip : row.tip = true) (hfov : ∀ s ∈ row.vics, s.inFOV = false) :
    getFOVColor row = none ∧
    (∃ r ∈ (stepRow c st row).2.1,
      r.kind = RecKind.action ∧
      r.actEv = ActEv.actDur (c.triageAct none) (getDurationIfTriaging row row.duration)) ∧
    (∀ d : Int, 7 < d → d < 15 → getDurationIfTriaging row d = 5) ∧
    (∀ d : Int, 15 ≤ d → getDurationIfTriaging row d = 15) := by
  have hcolor : getFOVColor row = none := by
    unfold getFOVColor
    rw [List.find?_eq_none.mpr (fun s hs => by simp [hfov s hs])]
    rfl
  refine ⟨hcolor, ?_, fun d h7 h15 => ?_, fun d h15 => ?_⟩
  · rw [stepRow_move c st row l hl hne hmv, if_pos htip, hcolor]
    exact emitRow_mem_triage _ _ _ c row _ _ (c.triageAct none)
      (getDurationIfTriaging row row.duration) (List.mem_singleton_self _)
  · simp [getDurationIfTriaging, htip, hcolor, show ¬ d ≤ 7 by omega, h15]
  · simp [getDurationIfTriaging, htip, hcolor, show ¬ d ≤ 7 by omega, show ¬ d < 15 by omega]

/-- A row entering a new room with a triage in progress and no slot in
FOV. -/
def tipNoFovRow : Row :=
  { room := "R208", vics := [{ id := "v1", color := "Gold", inFOV := false }],
    vicInCH := "None", tip := true, tresult := "NONE", timer := 290,
    stamp := 2, duration := 6 }

/-- Witness for C10 at a concrete room-entry triage with empty FOV. -/
theorem triage_without_fov_carries_none_witness :
    ∃ r ∈ (stepRow cPath
      { prev := some prevRowA, lastLoc := some "R201", attemptID := 0 } tipNoFovRow).2.1,
      r.kind = RecKind.action ∧
      r.actEv = ActEv.actDur (cPath.triageAct none)
        (getDurationIfTriaging tipNoFovRow tipNoFovRow.duration) :=
  (triage_without_fov_carries_none cPath
    { prev := some prevRowA, lastLoc := some "R201", attemptID := 0 }
    tipNoFovRow "R201" rfl (by decide) (by decide) rfl (by decide)).2.1

/-! ### Duration attribution within a row (C1) -/

/-- Position of a payload in the fixed emission order of a row: moves and
the initial-location marker first, then searches, then triages, then
flag-set events. -/
def evRank : ActEv → Nat
  | ActEv.initLoc _ => 0
  | ActEv.actOnly _ => 0
  | ActEv.searchEv _ _ => 1
  | ActEv.actDur _ _ => 2
  | ActEv.flagEv _ _ => 3

/-- Position of a record in the fixed emission order of a row. -/
def recRank (r : ActionRecord) : Nat :=
  evRank r.actEv

/-- Unfolding of the same-room branch when no previous row exists; this
state is unreachable from the initial state (the last room is only ever
recorded together with a previous row) and the embedding treats it as
flags-unchanged. -/
lemma stepRow_same_room_no_prev (c : Collab) (st : ExtState) (row : Row)
    (hl : st.lastLoc = some row.room) (hp : st.prev = none) :
    stepRow c st row =
      ({ prev := some row, lastLoc := st.lastLoc, attemptID := st.attemptID },
       emitRow [] (parseFOVColors row false none) [] c row
         (getDurationIfTriaging row row.duration) st.attemptID, []) := by
  unfold stepRow
  rw [if_pos hl, hp]

/-- Elements attributed by `spendDuration` come from the input list. -/
lemma spendDuration_fst_mem (d : Int) (xs : List α) (q : α × Int)
    (hq : q ∈ (spendDuration d xs).1) : q.1 ∈ xs := by
  cases xs with
  | nil => cases hq
  | cons y ys =>
    rcases List.mem_cons.mp hq with h | h
    · rw [h]
      exact List.mem_cons_self y ys
    · rcases List.mem_map.mp h with ⟨x, hx, rfl⟩
      exact List.mem_cons_of_mem y hx

/-- Once the pending duration is zero, every attributed duration is zero. -/
lemma spendDuration_zero_mem (xs : List α) (q : α × Int)
    (hq : q ∈ (spendDuration (0 : Int) xs).1) : q.2 = 0 := by
  cases xs with
  | nil => cases hq
  | cons y ys =>
    rcases List.mem_cons.mp hq with h | h
    · rw [h]
    · rcases List.mem_map.mp h with ⟨x, hx, rfl⟩
      rfl

/-- The leftover of spending a zero duration is zero. -/
lemma spendDuration_zero_snd (xs : List α) : (spendDuration (0 : Int) xs).2 = 0 := by
  cases xs <;> rfl

/-- Record durations of the move block are the attributed durations. -/
lemma map_dur_moveRecs (X : List (ActEv × Int)) (row : Row) (att : Nat) :
    ((X.map (fun md =>
      ({ kind := RecKind.action, actEv := md.1, stamp := row.stamp,
         dur := md.2, attempt := att, timer := row.timer } : ActionRecord))).map
      (fun r => r.dur)) = X.map (fun q => q.2) := by
  induction X with
  | nil => rfl
  | cons q t ih => simp only [List.map_cons, ih]

/-- Record durations of the search block are the attributed durations. -/
lemma map_dur_searchRecs (X : List (String × Int)) (c : Collab) (row : Row) (att : Nat) :
    ((X.map (fun sd =>
      ({ kind := RecKind.search, actEv := ActEv.searchEv c.searchAct sd.1,
         stamp := row.stamp, dur := sd.2, attempt := att, timer := row.timer } : ActionRecord))).map
      (fun r => r.dur)) = X.map (fun q => q.2) := by
  induction X with
  | nil => rfl
  | cons q t ih => simp only [List.map_cons, ih]

/-- Record durations of the triage block are the attributed durations. -/
lemma map_dur_triageRecs (X : List ((String × Int) × Int)) (row : Row) (att : Nat) :
    ((X.map (fun td =>
      ({ kind := RecKind.action, actEv := ActEv.actDur td.1.1 td.1.2,
         stamp := row.stamp, dur := td.2, attempt := att, timer := row.timer } : ActionRecord))).map
      (fun r => r.dur)) = X.map (fun q => q.2) := by
  induction X with
  | nil => rfl
  | cons q t ih => simp only [List.map_cons, ih]

/-- The duration list of a whole row, blockwise. -/
lemma emitRow_map_dur (mv : List ActEv) (sc : List String) (tr : List (String × Int))
    (c : Collab) (row : Row) (d : Int) (att : Nat) :
    (emitRow mv sc tr c row d att).map (fun r => r.dur) =
      (spendDuration d mv).1.map (fun q => q.2) ++
      (spendDuration (spendDuration d mv).2 sc).1.map (fun q => q.2) ++
      (spendDuration (spendDuration (spendDuration d mv).2 sc).2 tr).1.map (fun q => q.2) := by
  unfold emitRow
  rw [List.map_append, List.map_append, map_dur_moveRecs, map_dur_searchRecs,
    map_dur_triageRecs]

/-- Attributed durations of a nonempty list: head gets the pending amount. -/
lemma spendDuration_snds_cons (d : Int) (y : α) (ys : List α) :
    (spendDuration d (y :: ys)).1.map (fun q => q.2) =
      d :: (ys.map (fun x => (x, (0 : Int)))).map (fun q => q.2) := by
  simp only [spendDuration, List.map_cons]

/-- Leftover duration after a nonempty list is zero. -/
lemma spendDuration_snd_cons (d : Int) (y : α) (ys : List α) :
    (spendDuration d (y :: ys)).2 = 0 := rfl

/-- Full shape of the records a row emits: the duration list starts with
the row's (quantized) duration followed by zeros, and the records split
into the move block, the search block and the triage block, in this
order. -/
lemma emitRow_spec (mv : List ActEv) (sc : List String) (tr : List (String × Int))
    (c : Collab) (row : Row) (d : Int) (att : Nat)
    (hrank : ∀ a ∈ mv, evRank a = 0)
    (h : emitRow mv sc tr c row d att ≠ []) :
    ((emitRow mv sc tr c row d att).map (fun r => r.dur)).sum = d ∧
    (∃ tail, (emitRow mv sc tr c row d att).map (fun r => r.dur) = d :: tail ∧
      ∀ x ∈ tail, x = 0) ∧
    (∃ ms ss ts, emitRow mv sc tr c row d att = ms ++ ss ++ ts ∧
      (∀ r ∈ ms, recRank r = 0) ∧ (∀ r ∈ ss, recRank r = 1) ∧
      (∀ r ∈ ts, recRank r = 2)) := by
  have hranks : ∃ ms ss ts, emitRow mv sc tr c row d att = ms ++ ss ++ ts ∧
      (∀ r ∈ ms, recRank r = 0) ∧ (∀ r ∈ ss, recRank r = 1) ∧
      (∀ r ∈ ts, recRank r = 2) := by
    refine ⟨_, _, _, rfl, ?_, ?_, ?_⟩
    · intro r hr
      rcases List.mem_map.mp hr with ⟨md, hmd, rfl⟩
      exact hrank md.1 (spendDuration_fst_mem _ mv md hmd)
    · intro r hr
      rcases List.mem_map.mp hr with ⟨sd, _, rfl⟩
      rfl
    · intro r hr
      rcases List.mem_map.mp hr with ⟨td, _, rfl⟩
      rfl
  have hshape : ∃ tail, (emitRow mv sc tr c row d att).map (fun r => r.dur) = d :: tail ∧
      ∀ x ∈ tail, x = 0 := by
    rcases mv with _ | ⟨a, as⟩
    · rcases sc with _ | ⟨b, bs⟩
      · rcases tr with _ | ⟨t0, ts⟩
        · exact absurd rfl h
        · refine ⟨(ts.map (fun x => (x, (0 : Int)))).map (fun q => q.2), ?_, ?_⟩
          · rw [emitRow_map_dur, spendDuration_snds_cons]
            rfl
          · intro x hx
            rcases List.mem_map.mp hx with ⟨td, htd, rfl⟩
            rcases List.mem_map.mp htd with ⟨y, _, rfl⟩
            rfl
      · refine ⟨(bs.map (fun x => (x, (0 : Int)))).map (fun q => q.2) ++
          (spendDuration (0 : Int) tr).1.map (fun q => q.2), ?_, ?_⟩
        · rw [emitRow_map_dur, spendDuration_snds_cons, spendDuration_snd_cons]
          rfl
        · intro x hx
          rcases List.mem_append.mp hx with hx | hx
          · rcases List.mem_map.mp hx with ⟨sd, hsd, rfl⟩
            rcases List.mem_map.mp hsd with ⟨y, _, rfl⟩
            rfl
          · rcases List.mem_map.mp hx with ⟨td, htd, rfl⟩
            exact spendDuration_zero_mem tr td htd
    · refine ⟨((as.map (fun x => (x, (0 : Int)))).map (fun q => q.2) ++
        (spendDuration (0 : Int) sc).1.map (fun q => q.2)) ++
          (spendDuration (spendDuration (0 : Int) sc).2 tr).1.map (fun q => q.2), ?_, ?_⟩
      · rw [emitRow_map_dur, spendDuration_snds_cons, spendDuration_snd_cons]
        simp only [List.cons_append]
      · intro x hx
        rcases List.mem_append.mp hx with hx | hx
        · rcases List.mem_append.mp hx with hx | hx
          · rcases List.mem_map.mp hx with ⟨md, hmd, rfl⟩
            rcases List.mem_map.mp hmd with ⟨y, _, rfl⟩
            rfl
          · rcases List.mem_map.mp hx with ⟨sd, hsd, rfl⟩
            exact spendDuration_zero_mem sc sd hsd
        · rcases List.mem_map.mp hx with ⟨td, htd, rfl⟩
          rw [spendDuration_zero_snd sc] at htd
          exact spendDuration_zero_mem tr td htd
  rcases hshape with ⟨tail, htail, hzero⟩
  refine ⟨?_, ⟨tail, htail, hzero⟩, hranks⟩
  rw [htail, List.sum_cons, List.sum_eq_zero hzero]
  omega

/-- Every row either emits nothing (the unreachable-move skip) or emits its
records through `emitRow` with the quantized duration and move payloads of
move rank. -/
lemma stepRow_records_cases (c : Collab) (st : ExtState) (row : Row) :
    (stepRow c st row).2.1 = [] ∨
    ∃ mv sc tr att, (stepRow c st row).2.1 =
      emitRow mv sc tr c row (getDurationIfTriaging row row.duration) att ∧
      ∀ a ∈ mv, evRank a = 0 := by
  by_cases hsame : st.lastLoc = some row.room
  · cases hp : st.prev with
    | none =>
        right
        rw [stepRow_same_room_no_prev c st row hsame hp]
        exact ⟨[], _, [], st.attemptID, rfl, by intro a ha; cases ha⟩
    | some p =>
        right
        rw [stepRow_same_room c st row p hsame hp]
        exact ⟨[], _, _, _, rfl, by intro a ha; cases ha⟩
  · cases hl : st.lastLoc with
    | none =>
        right
        rw [stepRow_first_row c st row hl]
        refine ⟨[ActEv.initLoc row.room], _, _, st.attemptID, rfl, ?_⟩
        intro a ha
        rcases List.mem_singleton.mp ha with rfl
        rfl
    | some l =>
        have hne : row.room ≠ l := by
          intro hcontra
          apply hsame
          rw [hl, hcontra]
        by_cases hmv : c.movePath l row.room = []
        · left
          rw [stepRow_unreachable c st row l hl hne hmv]
        · right
          rw [stepRow_move c st row l hl hne hmv]
          refine ⟨(c.movePath l row.room).map ActEv.actOnly, _, _, st.attemptID, rfl, ?_⟩
          intro a ha
          rcases List.mem_map.mp ha with ⟨m, _, rfl⟩
          rfl

/-- C1 (amended): every row that emits at least one record conserves its
quantized duration: the durations attributed to the row's records sum to
the row's duration after triage quantization, the whole amount sits on the
first record emitted, every later record of the row carries zero, and the
row's records split into moves, then searches, then triages, in this fixed
order (the flag-set block is always empty).  A row that emits no record —
a skipped unreachable transition, or a quiet same-room row — contributes
no record at all, so its duration is attributed to nothing (see the
counterexample). -/
theorem stepRow_duration_attribution (c : Collab) (st : ExtState) (row : Row)
    (h : (stepRow c st row).2.1 ≠ []) :
    (((stepRow c st row).2.1).map (fun r => r.dur)).sum =
      getDurationIfTriaging row row.duration ∧
    (∃ tail, ((stepRow c st row).2.1).map (fun r => r.dur) =
      getDurationIfTriaging row row.duration :: tail ∧ ∀ x ∈ tail, x = 0) ∧
    (∃ ms ss ts, (stepRow c st row).2.1 = ms ++ ss ++ ts ∧
      (∀ r ∈ ms, recRank r = 0) ∧ (∀ r ∈ ss, recRank r = 1) ∧
      (∀ r ∈ ts, recRank r = 2)) := by
  rcases stepRow_records_cases c st row with hnil | ⟨mv, sc, tr, att, he, hrank⟩
  · exact absurd hnil h
  · rw [he] at h ⊢
    exact emitRow_spec mv sc tr c row (getDurationIfTriaging row row.duration) att hrank h

/-- Witness for C1 (amended) on the first concrete row: its single
initial-location record carries the whole duration. -/
theorem stepRow_duration_attribution_witness :
    (((stepRow cPath initialExtState prevRowA).2.1).map (fun r => r.dur)).sum =
      getDurationIfTriaging prevRowA prevRowA.duration :=
  (stepRow_duration_attribution cPath initialExtState prevRowA (by decide)).1

/-- A quiet same-room follow-up row: same flags, nobody in FOV, but a
nonzero dwell duration. -/
def quietRow : Row :=
  { room := "R201", vics := [], vicInCH := "None", tip := false,
    tresult := "NONE", timer := 299, stamp := 1, duration := 7 }

/-- C1 counterexample: the quiet same-room row emits no record, so the sum
of durations over the records derived from it is 0, not its computed
duration 7, and no record carries that duration. -/
theorem quiet_row_duration_lost :
    quietRow.duration = 7 ∧
    getActionsAndEvents cPath [prevRowA, quietRow] =
      getActionsAndEvents cPath [prevRowA] ∧
    (getActionsAndEvents cPath [prevRowA, quietRow]).map (fun r => r.dur) = [1] := by
  refine ⟨rfl, by decide, by decide⟩

/-! ### Evolution of the attempt counter (C4) -/

/-- All records emitted for one row carry the attempt id they were emitted
with. -/
lemma emitRow_attempt (mv : List ActEv) (sc : List String) (tr : List (String × Int))
    (c : Collab) (row : Row) (d : Int) (att : Nat) :
    ∀ r ∈ emitRow mv sc tr c row d att, r.attempt = att := by
  intro r hr
  unfold emitRow at hr
  simp only [List.mem_append, List.mem_map] at hr
  rcases hr with (⟨md, _, rfl⟩ | ⟨sd, _, rfl⟩) | ⟨td, _, rfl⟩ <;> rfl

/-- The attempt counter never decreases across one row. -/
lemma stepRow_attempt_ge (c : Collab) (st : ExtState) (row : Row) :
    st.attemptID ≤ (stepRow c st row).1.attemptID := by
  by_cases hsame : st.lastLoc = some row.room
  · cases hp : st.prev with
    | none =>
        rw [stepRow_same_room_no_prev c st row hsame hp]
    | some p =>
        rw [stepRow_same_room c st row p hsame hp]
        simp only
        split <;> omega
  · cases hl : st.lastLoc with
    | none =>
        rw [stepRow_first_row c st row hl]
    | some l =>
        have hne : row.room ≠ l := fun hcontra => hsame (by rw [hl, hcontra])
        by_cases hmv : c.movePath l row.room = []
        · rw [stepRow_unreachable c st row l hl hne hmv]
        · rw [stepRow_move c st row l hl hne hmv]

/-- Every record of a row carries the attempt id of the state after the
row (the source increments the counter before emission). -/
lemma stepRow_records_attempt (c : Collab) (st : ExtState) (row : Row) :
    ∀ r ∈ (stepRow c st row).2.1, r.attempt = (stepRow c st row).1.attemptID := by
  by_cases hsame : st.lastLoc = some row.room
  · cases hp : st.prev with
    | none =>
        rw [stepRow_same_room_no_prev c st row hsame hp]
        exact emitRow_attempt _ _ _ c row _ _
    | some p =>
        rw [stepRow_same_room c st row p hsame hp]
        exact emitRow_attempt _ _ _ c row _ _
  · cases hl : st.lastLoc with
    | none =>
        rw [stepRow_first_row c st row hl]
        exact emitRow_attempt _ _ _ c row _ _
    | some l =>
        have hne : row.room ≠ l := fun hcontra => hsame (by rw [hl, hcontra])
        by_cases hmv : c.movePath l row.room = []
        · rw [stepRow_unreachable c st row l hl hne hmv]
          intro r hr
          cases hr
        · rw [stepRow_move c st row l hl hne hmv]
          exact emitRow_attempt _ _ _ c row _ _

/-- Every record extracted from a state carries at least the state's
attempt id. -/
lemma extractFrom_attempt_lb (c : Collab) :
    ∀ (rows : List Row) (st : ExtState), ∀ r ∈ (extractFrom c st rows).1,
      st.attemptID ≤ r.attempt := by
  intro rows
  induction rows with
  | nil =>
      intro st r hr
      cases hr
  | cons row rest ih =>
      intro st r hr
      simp only [extractFrom] at hr
      rcases List.mem_append.mp hr with h | h
      · rw [stepRow_records_attempt c st row r h]
        exact stepRow_attempt_ge c st row
      · exact le_trans (stepRow_attempt_ge c st row) (ih (stepRow c st row).1 r h)

/-- Records all carrying one attempt id are pairwise monotone. -/
lemma pairwise_le_of_const_attempt (L : List ActionRecord) (a : Nat)
    (h : ∀ r ∈ L, r.attempt = a) :
    List.Pairwise (fun r1 r2 => r1.attempt ≤ r2.attempt) L := by
  induction L with
  | nil => exact List.Pairwise.nil
  | cons x t ih =>
      refine List.Pairwise.cons ?_ (ih fun r hr => h r (List.mem_cons_of_mem x hr))
      intro r hr
      rw [h x (List.mem_cons_self x t), h r (List.mem_cons_of_mem x hr)]

/-- The attempt ids along the extracted record sequence never decrease. -/
lemma extractFrom_attempt_sorted (c : Collab) :
    ∀ (rows : List Row) (st : ExtState),
      List.Pairwise (fun r1 r2 => r1.attempt ≤ r2.attempt) (extractFrom c st rows).1 := by
  intro rows
  induction rows with
  | nil =>
      intro st
      exact List.Pairwise.nil
  | cons row rest ih =>
      intro st
      have hsplit : (extractFrom c st (row :: rest)).1 =
          (stepRow c st row).2.1 ++ (extractFrom c (stepRow c st row).1 rest).1 := rfl
      rw [hsplit, List.pairwise_append]
      refine ⟨pairwise_le_of_const_attempt _ _ (stepRow_records_attempt c st row),
        ih _, ?_⟩
      intro r1 h1 r2 h2
      rw [stepRow_records_attempt c st row r1 h1]
      exact extractFrom_attempt_lb c rest (stepRow c st row).1 r2 h2

/-- C4 (amended): over the whole extracted sequence `attempt_id` is
non-decreasing; per row, given the previous non-skipped row, the counter
increments by one exactly on same-room rows where the previous row had
triage in progress and either triage flag (in-progress or result) changed,
and stays unchanged otherwise.  This differs from the claim in both
directions: a triage that concludes exactly on a room change does not
increment the counter (the room-change branch never touches it), and a row
whose triage stays in progress while `triage_result` changes does
increment it (see the counterexample). -/
theorem attemptID_evolution (c : Collab) :
    (∀ rows : List Row, List.Pairwise (· ≤ ·)
      ((getActionsAndEvents c rows).map (fun r => r.attempt))) ∧
    (∀ (st : ExtState) (row p : Row), st.prev = some p →
      (stepRow c st row).1.attemptID =
        (if st.lastLoc = some row.room ∧ p.tip = true ∧
            (row.tip ≠ p.tip ∨ row.tresult ≠ p.tresult)
         then st.attemptID + 1 else st.attemptID)) := by
  constructor
  · intro rows
    unfold getActionsAndEvents
    exact List.pairwise_map.mpr (extractFrom_attempt_sorted c rows initialExtState)
  · intro st row p hp
    by_cases hsame : st.lastLoc = some row.room
    · rw [stepRow_same_room c st row p hsame hp]
      simp [hsame]
    · cases hl : st.lastLoc with
      | none =>
          rw [stepRow_first_row c st row hl]
          simp [hsame]
      | some l =>
          have hne : row.room ≠ l := fun hcontra => hsame (by rw [hl, hcontra])
          by_cases hmv : c.movePath l row.room = []
          · rw [stepRow_unreachable c st row l hl hne hmv]
            simp [hsame, Ne.symm hne]
          · rw [stepRow_move c st row l hl hne hmv]
            simp [hsame, Ne.symm hne]

/-- A same-room row pair that keeps triage in progress while the recorded
triage result changes. -/
def raTip : Row :=
  { room := "R201", vics := [], vicInCH := "None", tip := true,
    tresult := "NONE", timer := 300, stamp := 0, duration := 3 }

/-- Second row of the pair: still triaging, result string changed. -/
def rbTip : Row :=
  { room := "R201", vics := [], vicInCH := "None", tip := true,
    tresult := "SUCCESSFUL", timer := 295, stamp := 3, duration := 0 }

/-- Witness for C4 (amended): the same-room flag-change row increments the
counter by one. -/
theorem attemptID_evolution_witness :
    (stepRow cPath { prev := some raTip, lastLoc := some "R201", attemptID := 0 } rbTip).1.attemptID =
      (if ({ prev := some raTip, lastLoc := some "R201", attemptID := 0 } : ExtState).lastLoc =
            some rbTip.room ∧ raTip.tip = true ∧
            (rbTip.tip ≠ raTip.tip ∨ rbTip.tresult ≠ raTip.tresult)
       then 0 + 1 else 0) :=
  (attemptID_evolution cPath).2
    { prev := some raTip, lastLoc := some "R201", attemptID := 0 } rbTip raTip rfl

/-- C4 counterexample: across the two rows the triage-in-progress flag
never transitions from true to false — it is true on both rows — yet the
attempt id of the extracted records increments from 0 to 1, because the
`triage_result` string changed; so the counter does not increment exactly
on in-progress-to-not-in-progress transitions. -/
theorem attempt_increment_without_transition :
    raTip.tip = true ∧ rbTip.tip = true ∧
    (getActionsAndEvents cPath [raTip, rbTip]).map (fun r => r.attempt) = [0, 0, 1] := by
  refine ⟨rfl, rfl, by decide⟩

end Atomic
